import Mathlib

/-!
Verification development for the interactive-document engine of
resctl-demo (`src/resctl-demo/src/doc.rs`).

The Rust source is shallowly embedded: `f64` values become `ℚ`, `u64`
counters become `Nat` (with explicit saturation where the source casts),
the process-wide `CMD_STATE` record becomes an explicit `CmdState`
structure threaded through the executable functions, and the calls into
the external agent (`sync` / `apply` / `refresh`) and into the widget
toolkit become events on an explicit trace.  Collaborator code that
lives in other crates of the repository (command.rs, rd-agent-intf,
rd-util, rd-hashd-intf) is modelled from the specification and kept
abstract inside an `Env` record of environment parameters.
-/

namespace RdDemo

/-- `u64::MAX`, the sentinel used by the benchmark-loop switch. -/
def U64MAX : Nat := 2 ^ 64 - 1

/-- Rust `f64::round`: round half away from zero. -/
def rustRound (q : ℚ) : ℤ :=
  if 0 ≤ q then ⌊q + 1 / 2⌋ else -⌊-q + 1 / 2⌋

/-- The clamp `v.max(0.0).min(1.0)` used by `refresh_one_knob`. -/
def clamp01 (v : ℚ) : ℚ := min (max v 0) 1

/-- Rust `format!("{:>5}", s)`: right-align in a field of width 5. -/
def pad5 (s : String) : String :=
  String.mk (List.replicate (5 - s.length) ' ') ++ s

/-! ### Ordered association lists standing for `BTreeMap<String, String>` -/

/-- `BTreeMap::insert`: keys are kept strictly sorted; an existing
key's value is overwritten in place. -/
def mapInsert : List (String × String) → String → String → List (String × String)
  | [], k, v => [(k, v)]
  | (k', v') :: rest, k, v =>
    if k < k' then (k, v) :: (k', v') :: rest
    else if k = k' then (k, v) :: rest
    else (k', v') :: mapInsert rest k v

/-- `BTreeMap::remove`: drop the entry with the given key. -/
def mapRemove (m : List (String × String)) (k : String) : List (String × String) :=
  m.filter (fun p => p.1 ≠ k)

/-- `BTreeMap::get` / `contains_key`. -/
def mapLookup : List (String × String) → String → Option String
  | [], _ => none
  | (k', v) :: rest, k => if k = k' then some v else mapLookup rest k

/-- Number of entries carrying the given key. -/
def countKey (m : List (String × String)) (k : String) : Nat :=
  (m.filter (fun p => p.1 = k)).length

/-- The `BTreeMap` representation invariant: keys strictly increasing. -/
def WFmap (m : List (String × String)) : Prop :=
  m.Pairwise (fun p q => p.1 < q.1)

instance (m : List (String × String)) : Decidable (WFmap m) := by
  unfold WFmap; infer_instance

theorem mapInsert_cons_lt {k k' : String} (h : k < k') (v v' : String)
    (rest : List (String × String)) :
    mapInsert ((k', v') :: rest) k v = (k, v) :: (k', v') :: rest := by
  rw [mapInsert, if_pos h]

theorem mapInsert_cons_eq {k k' : String} (h : k = k') (v v' : String)
    (rest : List (String × String)) :
    mapInsert ((k', v') :: rest) k v = (k, v) :: rest := by
  rw [mapInsert, if_neg (by rw [h]; exact lt_irrefl k'), if_pos h]

theorem mapInsert_cons_gt {k k' : String} (h : k' < k) (v v' : String)
    (rest : List (String × String)) :
    mapInsert ((k', v') :: rest) k v = (k', v') :: mapInsert rest k v := by
  rw [mapInsert, if_neg (lt_asymm h), if_neg (ne_of_gt h)]

theorem mapRemove_cons_ne {k k' : String} (h : k' ≠ k) (v' : String)
    (rest : List (String × String)) :
    mapRemove ((k', v') :: rest) k = (k', v') :: mapRemove rest k := by
  simp [mapRemove, h]

theorem mapRemove_cons_eq {k k' : String} (h : k' = k) (v' : String)
    (rest : List (String × String)) :
    mapRemove ((k', v') :: rest) k = mapRemove rest k := by
  simp [mapRemove, h]

theorem mapLookup_cons_eq {k k' : String} (h : k = k') (v' : String)
    (rest : List (String × String)) :
    mapLookup ((k', v') :: rest) k = some v' := by
  rw [mapLookup, if_pos h]

theorem mapLookup_cons_ne {k k' : String} (h : k ≠ k') (v' : String)
    (rest : List (String × String)) :
    mapLookup ((k', v') :: rest) k = mapLookup rest k := by
  rw [mapLookup, if_neg h]

theorem countKey_cons_eq {k k' : String} (h : k' = k) (v' : String)
    (rest : List (String × String)) :
    countKey ((k', v') :: rest) k = countKey rest k + 1 := by
  simp [countKey, List.filter_cons, h, List.length]

theorem countKey_cons_ne {k k' : String} (h : k' ≠ k) (v' : String)
    (rest : List (String × String)) :
    countKey ((k', v') :: rest) k = countKey rest k := by
  simp [countKey, List.filter_cons, h]

theorem mapRemove_eq_of_keys_ne {k : String} :
    ∀ m : List (String × String), (∀ p ∈ m, p.1 ≠ k) → mapRemove m k = m := by
  intro m
  induction m with
  | nil => intro _; rfl
  | cons p rest ih =>
    intro h
    obtain ⟨k', v'⟩ := p
    rw [mapRemove_cons_ne (h (k', v') (List.mem_cons_self _ _)),
      ih fun q hq => h q (List.mem_cons_of_mem _ hq)]

theorem mapRemove_of_lookup_none {k : String} :
    ∀ m : List (String × String), mapLookup m k = none → mapRemove m k = m := by
  intro m
  induction m with
  | nil => intro _; rfl
  | cons p rest ih =>
    intro h
    obtain ⟨k', v'⟩ := p
    by_cases hk : k = k'
    · rw [mapLookup_cons_eq hk] at h; exact absurd h (by simp)
    · rw [mapLookup_cons_ne hk] at h
      rw [mapRemove_cons_ne (Ne.symm hk), ih h]

theorem mapRemove_mapInsert (k v : String) :
    ∀ m : List (String × String),
      mapRemove (mapInsert m k v) k = mapRemove m k := by
  intro m
  induction m with
  | nil => simp [mapInsert, mapRemove]
  | cons p rest ih =>
    obtain ⟨k', v'⟩ := p
    rcases lt_trichotomy k k' with h1 | h1 | h1
    · rw [mapInsert_cons_lt h1, mapRemove_cons_eq rfl,
        mapRemove_cons_ne (ne_of_gt h1)]
    · rw [mapInsert_cons_eq h1, mapRemove_cons_eq rfl, ← h1,
        mapRemove_cons_eq rfl]
    · rw [mapInsert_cons_gt h1, mapRemove_cons_ne (ne_of_lt h1),
        mapRemove_cons_ne (ne_of_lt h1), ih]

theorem notMemKeys_of_wf_head {k' : String} {v' : String}
    {rest : List (String × String)}
    (hwf : WFmap ((k', v') :: rest)) {k : String} (hk : ¬k' < k) :
    ∀ p ∈ rest, p.1 ≠ k := by
  intro p hp
  have h := (List.pairwise_cons.mp hwf).1 p hp
  intro hcontra
  exact hk (hcontra ▸ h)

theorem mapInsert_eq_cons_of_lt {k : String} {m : List (String × String)}
    (h : ∀ p ∈ m, k < p.1) (v : String) : mapInsert m k v = (k, v) :: m := by
  cases m with
  | nil => rfl
  | cons p rest =>
    obtain ⟨k', v'⟩ := p
    exact mapInsert_cons_lt (h (k', v') (List.mem_cons_self _ _)) v v' rest

theorem mapInsert_mapRemove (k v : String) :
    ∀ m : List (String × String), WFmap m →
      mapInsert (mapRemove m k) k v = mapInsert m k v := by
  intro m
  induction m with
  | nil => intro _; rfl
  | cons p rest ih =>
    intro hwf
    obtain ⟨k', v'⟩ := p
    have hwf' : WFmap rest := (List.pairwise_cons.mp hwf).2
    have hhead := (List.pairwise_cons.mp hwf).1
    rcases lt_trichotomy k k' with h1 | h1 | h1
    · have hr : mapRemove rest k = rest :=
        mapRemove_eq_of_keys_ne rest (notMemKeys_of_wf_head hwf (lt_asymm h1))
      rw [mapRemove_cons_ne (ne_of_gt h1), hr, mapInsert_cons_lt h1]
    · subst h1
      have hr : mapRemove rest k = rest :=
        mapRemove_eq_of_keys_ne rest (notMemKeys_of_wf_head hwf (lt_irrefl k))
      rw [mapRemove_cons_eq rfl, hr,
        mapInsert_eq_cons_of_lt (fun p hp => hhead p hp) v,
        mapInsert_cons_eq rfl]
    · rw [mapRemove_cons_ne (ne_of_lt h1), mapInsert_cons_gt h1,
        mapInsert_cons_gt h1, ih hwf']

theorem mapLookup_mapInsert (k v : String) :
    ∀ m : List (String × String), mapLookup (mapInsert m k v) k = some v := by
  intro m
  induction m with
  | nil => simp [mapInsert, mapLookup]
  | cons p rest ih =>
    obtain ⟨k', v'⟩ := p
    rcases lt_trichotomy k k' with h1 | h1 | h1
    · rw [mapInsert_cons_lt h1, mapLookup_cons_eq rfl]
    · rw [mapInsert_cons_eq h1, mapLookup_cons_eq rfl]
    · rw [mapInsert_cons_gt h1, mapLookup_cons_ne (ne_of_gt h1), ih]

theorem countKey_eq_zero_of_keys_ne {k : String} :
    ∀ m : List (String × String), (∀ p ∈ m, p.1 ≠ k) → countKey m k = 0 := by
  intro m
  induction m with
  | nil => intro _; rfl
  | cons p rest ih =>
    intro h
    obtain ⟨k', v'⟩ := p
    rw [countKey_cons_ne (h (k', v') (List.mem_cons_self _ _)),
      ih fun q hq => h q (List.mem_cons_of_mem _ hq)]

theorem countKey_mapInsert (k v : String) :
    ∀ m : List (String × String), WFmap m →
      countKey (mapInsert m k v) k = 1 := by
  intro m
  induction m with
  | nil => simp [mapInsert, countKey]
  | cons p rest ih =>
    intro hwf
    obtain ⟨k', v'⟩ := p
    have hwf' : WFmap rest := (List.pairwise_cons.mp hwf).2
    rcases lt_trichotomy k k' with h1 | h1 | h1
    · have hz : countKey ((k', v') :: rest) k = 0 :=
        countKey_eq_zero_of_keys_ne _ (by
          intro p hp
          rcases List.mem_cons.mp hp with h | h
          · subst h; exact Ne.symm (ne_of_lt h1)
          · exact Ne.symm
              (ne_of_lt (lt_trans h1 ((List.pairwise_cons.mp hwf).1 p h))))
      rw [mapInsert_cons_lt h1, countKey_cons_eq rfl, hz]
    · subst h1
      have hz : countKey rest k = 0 :=
        countKey_eq_zero_of_keys_ne _ (notMemKeys_of_wf_head hwf (lt_irrefl k))
      rw [mapInsert_cons_eq rfl, countKey_cons_eq rfl, hz]
    · rw [mapInsert_cons_gt h1, countKey_cons_ne (ne_of_lt h1), ih hwf']

theorem mem_mapInsert {k v : String} {q : String × String} :
    ∀ m : List (String × String), q ∈ mapInsert m k v → q = (k, v) ∨ q ∈ m := by
  intro m
  induction m with
  | nil => intro hq; simp [mapInsert] at hq; exact Or.inl hq
  | cons p rest ih =>
    intro hq
    obtain ⟨k', v'⟩ := p
    rcases lt_trichotomy k k' with h1 | h1 | h1
    · rw [mapInsert_cons_lt h1] at hq
      rcases List.mem_cons.mp hq with h | h
      · exact Or.inl h
      · exact Or.inr h
    · rw [mapInsert_cons_eq h1] at hq
      rcases List.mem_cons.mp hq with h | h
      · exact Or.inl h
      · exact Or.inr (List.mem_cons_of_mem _ h)
    · rw [mapInsert_cons_gt h1] at hq
      rcases List.mem_cons.mp hq with h | h
      · exact Or.inr (h ▸ List.mem_cons_self _ _)
      · rcases ih h with h' | h'
        · exact Or.inl h'
        · exact Or.inr (List.mem_cons_of_mem _ h')

theorem mapInsert_wf (k v : String) :
    ∀ m : List (String × String), WFmap m → WFmap (mapInsert m k v) := by
  intro m
  induction m with
  | nil => intro _; simp [mapInsert, WFmap]
  | cons p rest ih =>
    intro hwf
    obtain ⟨k', v'⟩ := p
    have hwf' : WFmap rest := (List.pairwise_cons.mp hwf).2
    have hhead := (List.pairwise_cons.mp hwf).1
    rcases lt_trichotomy k k' with h1 | h1 | h1
    · rw [mapInsert_cons_lt h1]
      refine List.pairwise_cons.mpr ⟨?_, hwf⟩
      intro q hq
      rcases List.mem_cons.mp hq with h | h
      · subst h; exact h1
      · exact lt_trans h1 (hhead q h)
    · subst h1
      rw [mapInsert_cons_eq rfl]
      exact List.pairwise_cons.mpr ⟨fun q hq => hhead q hq, hwf'⟩
    · rw [mapInsert_cons_gt h1]
      refine List.pairwise_cons.mpr ⟨?_, ih hwf'⟩
      intro q hq
      rcases mem_mapInsert _ hq with h | h
      · subst h; exact h1
      · exact hhead q h

/-! ### Data model (`markup_rd::{RdSwitch, RdKnob, RdReset, RdCmd, RdDoc}`) -/

/-- `RdSwitch`: the enumerated boolean controls. -/
inductive RdSwitch
  | BenchHashd
  | BenchHashdLoop
  | BenchIoCost
  | BenchNeeded
  | HashdA
  | HashdB
  | Sideload (tag id : String)
  | Sysload (tag id : String)
  | CpuResCtl
  | MemResCtl
  | IoResCtl
  | Oomd
  | OomdWorkMemPressure
  | OomdWorkSenpai
  | OomdSysMemPressure
  | OomdSysSenpai
  deriving DecidableEq, Repr

/-- `RdKnob`: the enumerated continuous controls. -/
inductive RdKnob
  | HashdALoad | HashdBLoad
  | HashdALatTargetPct | HashdBLatTargetPct
  | HashdALatTarget | HashdBLatTarget
  | HashdAMem | HashdBMem
  | HashdAFileAddrStdev | HashdAAnonAddrStdev
  | HashdBFileAddrStdev | HashdBAnonAddrStdev
  | HashdAFile | HashdBFile
  | HashdAFileMax | HashdBFileMax
  | HashdALogBps | HashdBLogBps
  | HashdAWeight | HashdBWeight
  | SysCpuRatio | SysIoRatio
  | MemMargin | Balloon | CpuHeadroom
  deriving DecidableEq, Repr

/-- `RdReset`: the named composite reset policies. -/
inductive RdReset
  | Benches | Hashds | HashdParams | Sideloads | Sysloads
  | ResCtl | ResCtlParams | Oomd | Graph | Secondaries
  | AllWorkloads | Protections | All | Params | AllWithParams | Prep
  deriving DecidableEq, Repr

/-- `RdCmd`: the command language of the document DSL. -/
inductive RdCmd
  | On (sw : RdSwitch)
  | Off (sw : RdSwitch)
  | Toggle (sw : RdSwitch)
  | Knob (knob : RdKnob) (val : ℚ)
  | Graph (tag : String)
  | Reset (reset : RdReset)
  | Jump (target : String)
  | Group (cmds : List RdCmd)

/-- `rd_agent_intf::HashdCmd`: one workload's parameter block, as used by
doc.rs (`f64` fields become `ℚ`, `log_bps: u64` becomes `Nat`). -/
structure HashdCmd where
  active : Bool
  rps_target_ratio : ℚ
  lat_target_pct : ℚ
  lat_target : ℚ
  mem_ratio : Option ℚ
  file_addr_stdev : Option ℚ
  anon_addr_stdev : Option ℚ
  file_ratio : ℚ
  file_max_ratio : ℚ
  log_bps : Nat
  weight : ℚ
  deriving DecidableEq, Repr

/-- `command::CmdState` (`CMD_STATE`): the process-wide Control State, with
exactly the fields doc.rs reads and writes. -/
structure CmdState where
  bench_hashd_cur : Nat
  bench_hashd_next : Nat
  bench_iocost_cur : Nat
  bench_iocost_next : Nat
  hashd0 : HashdCmd
  hashd1 : HashdCmd
  sideloads : List (String × String)
  sysloads : List (String × String)
  cpu : Bool
  mem : Bool
  io : Bool
  oomd : Bool
  oomd_work_mempress : Bool
  oomd_work_senpai : Bool
  oomd_sys_mempress : Bool
  oomd_sys_senpai : Bool
  sys_cpu_ratio : ℚ
  sys_io_ratio : ℚ
  mem_margin : ℚ
  balloon_ratio : ℚ
  cpu_headroom : ℚ
  deriving DecidableEq, Repr

/-- `markup_rd::RdDoc`, restricted to the parts the engine consumes:
identity, entry/exit commands and the referenced directives. -/
structure RdDoc where
  id : String
  desc : String
  pre_cmds : List RdCmd
  post_cmds : List RdCmd
  toggles : List RdSwitch
  knobs : List RdKnob

/-- The empty initial document held by `CUR_DOC` before the first show. -/
def emptyDoc : RdDoc :=
  { id := "", desc := "", pre_cmds := [], post_cmds := [],
    toggles := [], knobs := [] }

/-- One observable interaction with the agent / widget layer. -/
inductive Event
  | sync (ok : Bool)
  | mutate
  | apply (ok : Bool)
  | reconcile
  deriving DecidableEq, Repr

/-- Modelled from the spec: the environment parameters the interpreter
consults but whose producing code lives outside `src/` — the benchmark
file (`wbps`, hashd memory size/fraction), total system memory, the
defaults of `rd_agent_intf` (`HashdCmd::default`, `Cmd::default`,
`SliceConfig`) and `rd_hashd_intf::Params`, the agent's externally
advanced completion counters, whether agent `sync`/`apply` acknowledge
successfully, the document registry `DOCS`, and the pure text
formatters of rd-util (`format_size`, `format4_pct`). -/
structure Env where
  wbps : Nat
  hashd_mem_size : ℚ
  hashd_mem_frac : ℚ
  total_memory : ℚ
  dfl_hashd : HashdCmd
  dfl_sys_cpu_ratio : ℚ
  dfl_sys_io_ratio : ℚ
  dfl_mem_margin : ℚ
  dfl_balloon_ratio : ℚ
  dfl_cpu_headroom : ℚ
  dfl_file_addr_stdev : ℚ
  dfl_anon_addr_stdev : ℚ
  agent_hashd_cur : Nat
  agent_iocost_cur : Nat
  sync_ok : Bool
  apply_ok : Bool
  docs : String → Option RdDoc
  fmt_size : ℚ → String
  fmt_pct : ℚ → String

/-- The whole engine state: Control State, the selected main graph,
the current document, the back-history stack (head = top), and the
trace of agent/widget interactions. -/
structure FullSt where
  cs : CmdState
  graph : Option String
  cur : RdDoc
  hist : List String
  events : List Event

/-! ### Control-State mutation (`exec_one_cmd`'s match arms) -/

/-- Rust `as u64` applied to a rounded non-negative `f64`: saturating cast. -/
def u64cast (z : ℤ) : Nat := min z.toNat U64MAX

/-- The `RdCmd::On`/`RdCmd::Off` switch write of `exec_one_cmd`. -/
def applySwitch (is_on : Bool) (sw : RdSwitch) (cs : CmdState) : CmdState :=
  match sw with
  | .BenchHashd =>
    { cs with bench_hashd_next := cs.bench_hashd_cur + (if is_on then 1 else 0) }
  | .BenchHashdLoop =>
    { cs with bench_hashd_next := if is_on then U64MAX else cs.bench_hashd_cur }
  | .BenchIoCost =>
    { cs with bench_iocost_next := cs.bench_iocost_cur + (if is_on then 1 else 0) }
  | .BenchNeeded =>
    { cs with
      bench_hashd_next := if cs.bench_hashd_cur = 0 then 1 else cs.bench_hashd_next,
      bench_iocost_next := if cs.bench_iocost_cur = 0 then 1 else cs.bench_iocost_next }
  | .HashdA => { cs with hashd0 := { cs.hashd0 with active := is_on } }
  | .HashdB => { cs with hashd1 := { cs.hashd1 with active := is_on } }
  | .Sideload tag id =>
    if is_on then { cs with sideloads := mapInsert cs.sideloads tag id }
    else { cs with sideloads := mapRemove cs.sideloads tag }
  | .Sysload tag id =>
    if is_on then { cs with sysloads := mapInsert cs.sysloads tag id }
    else { cs with sysloads := mapRemove cs.sysloads tag }
  | .CpuResCtl => { cs with cpu := is_on }
  | .MemResCtl => { cs with mem := is_on }
  | .IoResCtl => { cs with io := is_on }
  | .Oomd => { cs with oomd := is_on }
  | .OomdWorkMemPressure => { cs with oomd_work_mempress := is_on }
  | .OomdWorkSenpai => { cs with oomd_work_senpai := is_on }
  | .OomdSysMemPressure => { cs with oomd_sys_mempress := is_on }
  | .OomdSysSenpai => { cs with oomd_sys_senpai := is_on }

/-- The `RdCmd::Knob` scalar write of `exec_one_cmd`.  The four
address-stdev knobs store the sentinel `100.0` for any ratio not
strictly below `1.0`; the log-bandwidth knobs store
`(wbps * val).round() as u64`. -/
def knobMutate (env : Env) (knob : RdKnob) (v : ℚ) (cs : CmdState) : CmdState :=
  match knob with
  | .HashdALoad => { cs with hashd0 := { cs.hashd0 with rps_target_ratio := v } }
  | .HashdBLoad => { cs with hashd1 := { cs.hashd1 with rps_target_ratio := v } }
  | .HashdALatTargetPct => { cs with hashd0 := { cs.hashd0 with lat_target_pct := v } }
  | .HashdBLatTargetPct => { cs with hashd1 := { cs.hashd1 with lat_target_pct := v } }
  | .HashdALatTarget => { cs with hashd0 := { cs.hashd0 with lat_target := v } }
  | .HashdBLatTarget => { cs with hashd1 := { cs.hashd1 with lat_target := v } }
  | .HashdAMem => { cs with hashd0 := { cs.hashd0 with mem_ratio := some v } }
  | .HashdBMem => { cs with hashd1 := { cs.hashd1 with mem_ratio := some v } }
  | .HashdAFileAddrStdev =>
    { cs with hashd0 :=
      { cs.hashd0 with file_addr_stdev := some (if v < 1 then v else 100) } }
  | .HashdAAnonAddrStdev =>
    { cs with hashd0 :=
      { cs.hashd0 with anon_addr_stdev := some (if v < 1 then v else 100) } }
  | .HashdBFileAddrStdev =>
    { cs with hashd1 :=
      { cs.hashd1 with file_addr_stdev := some (if v < 1 then v else 100) } }
  | .HashdBAnonAddrStdev =>
    { cs with hashd1 :=
      { cs.hashd1 with anon_addr_stdev := some (if v < 1 then v else 100) } }
  | .HashdAFile => { cs with hashd0 := { cs.hashd0 with file_ratio := v } }
  | .HashdBFile => { cs with hashd1 := { cs.hashd1 with file_ratio := v } }
  | .HashdAFileMax => { cs with hashd0 := { cs.hashd0 with file_max_ratio := v } }
  | .HashdBFileMax => { cs with hashd1 := { cs.hashd1 with file_max_ratio := v } }
  | .HashdALogBps =>
    { cs with hashd0 :=
      { cs.hashd0 with log_bps := u64cast (rustRound ((env.wbps : ℚ) * v)) } }
  | .HashdBLogBps =>
    { cs with hashd1 :=
      { cs.hashd1 with log_bps := u64cast (rustRound ((env.wbps : ℚ) * v)) } }
  | .HashdAWeight => { cs with hashd0 := { cs.hashd0 with weight := v } }
  | .HashdBWeight => { cs with hashd1 := { cs.hashd1 with weight := v } }
  | .SysCpuRatio => { cs with sys_cpu_ratio := v }
  | .SysIoRatio => { cs with sys_io_ratio := v }
  | .MemMargin => { cs with mem_margin := v }
  | .Balloon => { cs with balloon_ratio := v }
  | .CpuHeadroom => { cs with cpu_headroom := v }

/-! ### Reset policies (`RdCmd::Reset` match of `exec_one_cmd`) -/

def reset_benches (cs : CmdState) : CmdState :=
  { cs with bench_hashd_next := cs.bench_hashd_cur,
            bench_iocost_next := cs.bench_iocost_cur }

def reset_hashds (cs : CmdState) : CmdState :=
  { cs with hashd0 := { cs.hashd0 with active := false },
            hashd1 := { cs.hashd1 with active := false } }

/-- Restore both workloads' tunables to `HashdCmd::default()` (an `Env`
parameter), preserving the activity flag. -/
def reset_hashd_params (env : Env) (cs : CmdState) : CmdState :=
  { cs with hashd0 := { env.dfl_hashd with active := cs.hashd0.active },
            hashd1 := { env.dfl_hashd with active := cs.hashd1.active } }

def reset_secondaries (cs : CmdState) : CmdState :=
  { cs with sideloads := [], sysloads := [] }

def reset_resctl (cs : CmdState) : CmdState :=
  { cs with cpu := true, mem := true, io := true }

/-- Restore global tunables to their computed defaults (`Env` parameters
standing for `SliceConfig` constants, `dfl_mem_margin(total_memory(),
*IS_FB_PROD) / total_memory()` and `Cmd::default()` fields). -/
def reset_resctl_params (env : Env) (cs : CmdState) : CmdState :=
  { cs with sys_cpu_ratio := env.dfl_sys_cpu_ratio,
            sys_io_ratio := env.dfl_sys_io_ratio,
            mem_margin := env.dfl_mem_margin,
            balloon_ratio := env.dfl_balloon_ratio,
            cpu_headroom := env.dfl_cpu_headroom }

def reset_oomd (cs : CmdState) : CmdState :=
  { cs with oomd := true,
            oomd_work_mempress := true,
            oomd_work_senpai := false,
            oomd_sys_mempress := true,
            oomd_sys_senpai := false }

/-- The dispatch of `RdCmd::Reset(reset)` on the Control State and the
selected main graph. -/
def applyReset (env : Env) (r : RdReset) (cs : CmdState) (g : Option String) :
    CmdState × Option String :=
  match r with
  | .Benches => (reset_benches cs, g)
  | .Hashds => (reset_hashds cs, g)
  | .HashdParams => (reset_hashd_params env cs, g)
  | .Sideloads => ({ cs with sideloads := [] }, g)
  | .Sysloads => ({ cs with sysloads := [] }, g)
  | .ResCtl => (reset_resctl cs, g)
  | .ResCtlParams => (reset_resctl_params env cs, g)
  | .Oomd => (reset_oomd cs, g)
  | .Graph => (cs, none)
  | .Secondaries => (reset_secondaries cs, g)
  | .AllWorkloads => (reset_secondaries (reset_hashds cs), g)
  | .Protections => (reset_oomd (reset_resctl cs), g)
  | .All =>
    (reset_oomd (reset_resctl (reset_secondaries
      (reset_hashds (reset_benches cs)))), none)
  | .Params => (reset_resctl_params env (reset_hashd_params env cs), g)
  | .AllWithParams =>
    (reset_resctl_params env (reset_hashd_params env
      (reset_oomd (reset_resctl (reset_secondaries
        (reset_hashds (reset_benches cs)))))), none)
  | .Prep =>
    (reset_resctl_params env (reset_hashd_params env
      (reset_oomd (reset_resctl (reset_secondaries cs)))), none)

/-! ### The interpreter (`exec_one_cmd`, `exec_cmd`) -/

/-- Modelled from the spec: `CmdState::refresh` (command.rs is outside
`src/`) pulls the externally-advanced benchmark completion counters from
the agent before Reconciliation reads state. -/
def cs_refresh (env : Env) (cs : CmdState) : CmdState :=
  { cs with bench_hashd_cur := env.agent_hashd_cur,
            bench_iocost_cur := env.agent_iocost_cur }

/-- Append one event to the trace. -/
def emitE (e : Event) (st : FullSt) : FullSt :=
  { st with events := st.events ++ [e] }

/-- `refresh_cur_doc`: refresh the Control State from the agent, then
recompute every widget of the current document (recorded as one
`reconcile` event; the per-widget values are the pure functions below). -/
def reconcile (env : Env) (st : FullSt) : FullSt :=
  { st with cs := cs_refresh env st.cs, events := st.events ++ [.reconcile] }

/-- Does the command take the `RdCmd::On` branch (and hence sync first)? -/
def is_on_cmd : RdCmd → Bool
  | .On _ => true
  | _ => false

/-- The commands the interpreter `exec_one_cmd` accepts; everything else
falls into its `panic!` branch. -/
def interp_domain : RdCmd → Bool
  | .On _ | .Off _ | .Knob _ _ | .Graph _ | .Reset _ => true
  | _ => false

/-- The state mutation of `exec_one_cmd`'s `match cmd` (no agent calls);
`none` is the `panic!("exec_cmd: unexpected command")` branch reached by
`Toggle`, `Jump` and `Group`. -/
def cmdMutate (env : Env) (cmd : RdCmd) (cs : CmdState) (g : Option String) :
    Option (CmdState × Option String) :=
  match cmd with
  | .On sw => some (applySwitch true sw cs, g)
  | .Off sw => some (applySwitch false sw cs, g)
  | .Knob knob v => some (knobMutate env knob v cs, g)
  | .Graph tag => some (cs, if tag.length > 0 then some tag else none)
  | .Reset r => some (applyReset env r cs g)
  | _ => none

/-- `exec_one_cmd`: an `On` command first blocks on agent `sync()` (an
error is logged and execution proceeds), the command then mutates the
Control State, the mutated state is submitted via `apply()` (an error is
logged, never raised), and `refresh_cur_doc` reconciles the widgets. -/
def exec_one_cmd (env : Env) (cmd : RdCmd) (st : FullSt) : Option FullSt :=
  match cmdMutate env cmd st.cs st.graph with
  | none => none
  | some (cs', g') =>
    some (reconcile env
      { st with
        cs := cs',
        graph := g',
        events := st.events ++
          (if is_on_cmd cmd then [.sync env.sync_ok] else []) ++
          [.mutate, .apply env.apply_ok] })

/-- The member loop of `exec_cmd` on a `Group`: members run in order,
independently and non-atomically. -/
def exec_group (env : Env) : List RdCmd → FullSt → Option FullSt
  | [], st => some st
  | c :: rest, st => (exec_one_cmd env c st).bind (exec_group env rest)

/-- `exec_cmd`: flatten a `Group` one level, otherwise run the single
command. -/
def exec_cmd (env : Env) (cmd : RdCmd) (st : FullSt) : Option FullSt :=
  match cmd with
  | .Group g => exec_group env g st
  | _ => exec_one_cmd env cmd st

/-- Run a list of commands through `exec_cmd` (the pre/post command
loops of `show_doc`). -/
def exec_cmds (env : Env) : List RdCmd → FullSt → Option FullSt
  | [], st => some st
  | c :: rest, st => (exec_cmd env c st).bind (exec_cmds env rest)

/-! ### Navigation (`show_doc`) -/

/-- Outcome of scanning a target's pre-commands: either a `Jump`
retargeted navigation, or all of them executed. -/
inductive PreOut
  | retarget (t : String) (st : FullSt)
  | done (st : FullSt)

/-- The pre-command loop of `show_doc`: execute each command in order,
but on the first `Jump` stop and retarget. -/
def processPre (env : Env) : List RdCmd → FullSt → Option PreOut
  | [], st => some (.done st)
  | c :: rest, st =>
    match c with
    | .Jump t => some (.retarget t st)
    | _ => (exec_cmd env c st).bind (processPre env rest)

/-- `show_doc(siv, target, jump, back)`, fuel-indexed for the recursion
through retargeting pre-command `Jump`s.  On a jump the current
document's post-commands run, then the target's pre-commands (a `Jump`
retargets recursively with `jump := true, back := false`); the old
current id is pushed onto the history exactly when jumping, not going
back, and the id is non-empty.  The target then replaces the current
document and `refresh_cur_doc` reconciles. -/
def show_doc : Nat → Env → String → Bool → Bool → FullSt → Option FullSt
  | 0, _, _, _, _, _ => none
  | fuel + 1, env, target, jump, back, st =>
    match env.docs target with
    | none => none
    | some doc =>
      if jump then
        match exec_cmds env st.cur.post_cmds st with
        | none => none
        | some st1 =>
          match processPre env doc.pre_cmds st1 with
          | none => none
          | some (.retarget t st2) => show_doc fuel env t true false st2
          | some (.done st2) =>
            let st3 :=
              if back = false ∧ st.cur.id.length > 0
              then { st2 with hist := st.cur.id :: st2.hist }
              else st2
            some (reconcile env { st3 with cur := doc })
      else some (reconcile env { st with cur := doc })

/-- Modelled from the spec: the Back key handler (outside `src/`) pops
History's top and calls `show(that, jump := true, back := true)`; with
an empty history nothing happens. -/
def do_back (fuel : Nat) (env : Env) (st : FullSt) : Option FullSt :=
  match st.hist with
  | [] => some st
  | h :: rest => show_doc fuel env h true true { st with hist := rest }

/-! ### Reconciliation reads (`refresh_knobs`, `refresh_one_knob`) -/

/-- `hmem_ratio`: an unset memory knob falls back to the benchmarked
memory fraction. -/
def hmem_ratio (env : Env) (knob : Option ℚ) : ℚ :=
  match knob with
  | some v => v
  | none => env.hashd_mem_frac

/-- `hashd_cmd_file_addr_stdev`: clamp the stored value with `min(1.0)`;
an unset field falls back to `rd_hashd_intf::Params::default()`. -/
def hashd_cmd_file_addr_stdev (env : Env) (hashd : HashdCmd) : ℚ :=
  match hashd.file_addr_stdev with
  | some v => min v 1
  | none => env.dfl_file_addr_stdev

/-- `hashd_cmd_anon_addr_stdev`: as for the file variant. -/
def hashd_cmd_anon_addr_stdev (env : Env) (hashd : HashdCmd) : ℚ :=
  match hashd.anon_addr_stdev with
  | some v => min v 1
  | none => env.dfl_anon_addr_stdev

/-- The per-knob Control-State read of `refresh_knobs`. -/
def read_knob (env : Env) (cs : CmdState) (knob : RdKnob) : ℚ :=
  match knob with
  | .HashdALoad => cs.hashd0.rps_target_ratio
  | .HashdBLoad => cs.hashd1.rps_target_ratio
  | .HashdALatTargetPct => cs.hashd0.lat_target_pct
  | .HashdBLatTargetPct => cs.hashd1.lat_target_pct
  | .HashdALatTarget => cs.hashd0.lat_target
  | .HashdBLatTarget => cs.hashd1.lat_target
  | .HashdAMem => hmem_ratio env cs.hashd0.mem_ratio
  | .HashdBMem => hmem_ratio env cs.hashd1.mem_ratio
  | .HashdAFileAddrStdev => hashd_cmd_file_addr_stdev env cs.hashd0
  | .HashdAAnonAddrStdev => hashd_cmd_anon_addr_stdev env cs.hashd0
  | .HashdBFileAddrStdev => hashd_cmd_file_addr_stdev env cs.hashd1
  | .HashdBAnonAddrStdev => hashd_cmd_anon_addr_stdev env cs.hashd1
  | .HashdAFile => cs.hashd0.file_ratio
  | .HashdBFile => cs.hashd1.file_ratio
  | .HashdAFileMax => cs.hashd0.file_max_ratio
  | .HashdBFileMax => cs.hashd1.file_max_ratio
  | .HashdALogBps => (cs.hashd0.log_bps : ℚ) / (env.wbps : ℚ)
  | .HashdBLogBps => (cs.hashd1.log_bps : ℚ) / (env.wbps : ℚ)
  | .HashdAWeight => cs.hashd0.weight
  | .HashdBWeight => cs.hashd1.weight
  | .SysCpuRatio => cs.sys_cpu_ratio
  | .SysIoRatio => cs.sys_io_ratio
  | .MemMargin => cs.mem_margin
  | .Balloon => cs.balloon_ratio
  | .CpuHeadroom => cs.cpu_headroom

/-- `format_knob_val`: denormalize the ratio to engineering units and
right-align in a 5-wide field. -/
def format_knob_val (env : Env) (knob : RdKnob) (ratio : ℚ) : String :=
  pad5 (match knob with
    | .HashdALatTarget | .HashdBLatTarget =>
      toString (rustRound (ratio * 1000)) ++ "m"
    | .HashdAMem | .HashdBMem => env.fmt_size (ratio * env.hashd_mem_size)
    | .HashdALogBps | .HashdBLogBps => env.fmt_size (ratio * (env.wbps : ℚ))
    | .MemMargin => env.fmt_size (ratio * env.total_memory)
    | .Balloon => env.fmt_size (ratio * env.total_memory)
    | _ => env.fmt_pct ratio ++ "%")

/-- What `refresh_one_knob` pushes to the two widgets of a knob. -/
structure KnobWidget where
  digit : String
  slot : Nat
  deriving DecidableEq, Repr

/-- `refresh_one_knob`: clamp the ratio to `[0, 1]`, format the readout
from the clamped value, and place the slider slot from it. -/
def refresh_one_knob (env : Env) (knob : RdKnob) (v : ℚ) (range : Nat) : KnobWidget :=
  let val := clamp01 v
  { digit := format_knob_val env knob val,
    slot := (rustRound (val * ((range - 1 : Nat) : ℚ))).toNat }

/-! ### Shared lemmas -/

theorem clamp01_nonneg (v : ℚ) : 0 ≤ clamp01 v :=
  le_min (le_max_right v 0) zero_le_one

theorem clamp01_le_one (v : ℚ) : clamp01 v ≤ 1 := min_le_right _ 1

theorem clamp01_idem (v : ℚ) : clamp01 (clamp01 v) = clamp01 v := by
  unfold clamp01
  rw [max_eq_left (le_min (le_max_right v 0) zero_le_one),
    min_eq_left (min_le_right (max v 0) 1)]

theorem clamp01_of_mem (v : ℚ) (h0 : 0 ≤ v) (h1 : v ≤ 1) : clamp01 v = v := by
  unfold clamp01
  rw [max_eq_left h0, min_eq_left h1]

/-- Executing one interpreter command never touches the current document
or the history. -/
theorem exec_one_cmd_nav {env : Env} {cmd : RdCmd} {st st' : FullSt}
    (h : exec_one_cmd env cmd st = some st') :
    st'.cur = st.cur ∧ st'.hist = st.hist := by
  unfold exec_one_cmd at h
  cases hm : cmdMutate env cmd st.cs st.graph with
  | none => rw [hm] at h; exact Option.noConfusion h
  | some p =>
    obtain ⟨cs', g'⟩ := p
    rw [hm] at h
    obtain rfl := (Option.some.inj h).symm
    exact ⟨rfl, rfl⟩

theorem exec_group_nav {env : Env} :
    ∀ {g : List RdCmd} {st st' : FullSt}, exec_group env g st = some st' →
      st'.cur = st.cur ∧ st'.hist = st.hist := by
  intro g
  induction g with
  | nil => intro st st' h; obtain rfl := Option.some.inj h; exact ⟨rfl, rfl⟩
  | cons c rest ih =>
    intro st st' h
    unfold exec_group at h
    cases h1 : exec_one_cmd env c st with
    | none => rw [h1] at h; exact Option.noConfusion h
    | some stm =>
      rw [h1] at h
      obtain ⟨hc, hh⟩ := exec_one_cmd_nav h1
      obtain ⟨hc', hh'⟩ := ih h
      exact ⟨hc'.trans hc, hh'.trans hh⟩

theorem exec_cmd_nav {env : Env} {cmd : RdCmd} {st st' : FullSt}
    (h : exec_cmd env cmd st = some st') :
    st'.cur = st.cur ∧ st'.hist = st.hist := by
  cases cmd
  case Group g => exact exec_group_nav h
  all_goals exact exec_one_cmd_nav (by simpa only [exec_cmd] using h)

theorem exec_cmds_nav {env : Env} :
    ∀ {l : List RdCmd} {st st' : FullSt}, exec_cmds env l st = some st' →
      st'.cur = st.cur ∧ st'.hist = st.hist := by
  intro l
  induction l with
  | nil => intro st st' h; obtain rfl := Option.some.inj h; exact ⟨rfl, rfl⟩
  | cons c rest ih =>
    intro st st' h
    unfold exec_cmds at h
    cases h1 : exec_cmd env c st with
    | none => rw [h1] at h; exact Option.noConfusion h
    | some stm =>
      rw [h1] at h
      obtain ⟨hc, hh⟩ := exec_cmd_nav h1
      obtain ⟨hc', hh'⟩ := ih h
      exact ⟨hc'.trans hc, hh'.trans hh⟩

/-! ### Concrete instances for witness evaluation -/

/-- A concrete `HashdCmd` (all-zero tunables). -/
def testHashd : HashdCmd :=
  { active := false, rps_target_ratio := 0, lat_target_pct := 0,
    lat_target := 0, mem_ratio := none, file_addr_stdev := none,
    anon_addr_stdev := none, file_ratio := 0, file_max_ratio := 0,
    log_bps := 0, weight := 0 }

/-- A concrete Control State. -/
def testCs : CmdState :=
  { bench_hashd_cur := 0, bench_hashd_next := 0,
    bench_iocost_cur := 0, bench_iocost_next := 0,
    hashd0 := testHashd, hashd1 := testHashd,
    sideloads := [], sysloads := [],
    cpu := false, mem := false, io := false, oomd := false,
    oomd_work_mempress := false, oomd_work_senpai := false,
    oomd_sys_mempress := false, oomd_sys_senpai := false,
    sys_cpu_ratio := 0, sys_io_ratio := 0, mem_margin := 0,
    balloon_ratio := 0, cpu_headroom := 0 }

/-- A concrete environment. -/
def testEnv : Env :=
  { wbps := 4, hashd_mem_size := 8, hashd_mem_frac := 1/2,
    total_memory := 16, dfl_hashd := testHashd,
    dfl_sys_cpu_ratio := 0, dfl_sys_io_ratio := 0, dfl_mem_margin := 0,
    dfl_balloon_ratio := 0, dfl_cpu_headroom := 0,
    dfl_file_addr_stdev := 1/4, dfl_anon_addr_stdev := 1/4,
    agent_hashd_cur := 0, agent_iocost_cur := 0,
    sync_ok := true, apply_ok := true,
    docs := fun _ => none,
    fmt_size := fun q => toString q.num ++ "B",
    fmt_pct := fun q => toString q.num }

/-- A concrete full state. -/
def testSt : FullSt :=
  { cs := testCs, graph := none, cur := emptyDoc, hist := [], events := [] }

/-! ### C6 -/

/-- C6: for every knob and every Control-State scalar `v` (also outside
`[0, 1]`), `refresh_one_knob` reflects the clamped ratio
`max 0 (min 1 v)` to the widget: it agrees with reflecting the clamped
value, the clamped value lies in `[0, 1]`, and both the formatted
readout and the slider slot are computed from the clamped value, never
from `v` itself. -/
theorem c6_knob_reflect_clamped (env : Env) (knob : RdKnob) (v : ℚ) (range : Nat) :
    refresh_one_knob env knob v range = refresh_one_knob env knob (clamp01 v) range ∧
    0 ≤ clamp01 v ∧ clamp01 v ≤ 1 ∧
    (refresh_one_knob env knob v range).digit = format_knob_val env knob (clamp01 v) ∧
    (refresh_one_knob env knob v range).slot =
      (rustRound (clamp01 v * ((range - 1 : Nat) : ℚ))).toNat := by
  refine ⟨?_, clamp01_nonneg v, clamp01_le_one v, rfl, rfl⟩
  unfold refresh_one_knob
  rw [clamp01_idem]

/-! ### C10 -/

/-- C10: a `Knob` write to one of the four address-stdev knobs with a
ratio not strictly below `1.0` stores the sentinel `100.0`; every
reconciliation read clamps the stored value with `min 1.0` (so the
reflected ratio after a sentinel store is exactly `1`, inside `[0, 1]`),
and an unset field reads back as the external default parameter. -/
theorem c10_stdev_sentinel (env : Env) (cs : CmdState) (v : ℚ) (h0 : HashdCmd)
    (w : ℚ) (hv : ¬v < 1) :
    ((knobMutate env .HashdAFileAddrStdev v cs).hashd0.file_addr_stdev = some 100 ∧
     (knobMutate env .HashdAAnonAddrStdev v cs).hashd0.anon_addr_stdev = some 100 ∧
     (knobMutate env .HashdBFileAddrStdev v cs).hashd1.file_addr_stdev = some 100 ∧
     (knobMutate env .HashdBAnonAddrStdev v cs).hashd1.anon_addr_stdev = some 100) ∧
    (h0.file_addr_stdev = some w → hashd_cmd_file_addr_stdev env h0 = min w 1) ∧
    (h0.anon_addr_stdev = some w → hashd_cmd_anon_addr_stdev env h0 = min w 1) ∧
    (read_knob env (knobMutate env .HashdAFileAddrStdev v cs) .HashdAFileAddrStdev = 1 ∧
     read_knob env (knobMutate env .HashdAAnonAddrStdev v cs) .HashdAAnonAddrStdev = 1 ∧
     read_knob env (knobMutate env .HashdBFileAddrStdev v cs) .HashdBFileAddrStdev = 1 ∧
     read_knob env (knobMutate env .HashdBAnonAddrStdev v cs) .HashdBAnonAddrStdev = 1) ∧
    0 ≤ read_knob env (knobMutate env .HashdAFileAddrStdev v cs) .HashdAFileAddrStdev ∧
    read_knob env (knobMutate env .HashdAFileAddrStdev v cs) .HashdAFileAddrStdev ≤ 1 ∧
    (h0.file_addr_stdev = none →
      hashd_cmd_file_addr_stdev env h0 = env.dfl_file_addr_stdev) ∧
    (h0.anon_addr_stdev = none →
      hashd_cmd_anon_addr_stdev env h0 = env.dfl_anon_addr_stdev) := by
  have hmin : min (100 : ℚ) 1 = 1 := min_eq_right (by norm_num)
  refine ⟨⟨?_, ?_, ?_, ?_⟩, ?_, ?_, ⟨?_, ?_, ?_, ?_⟩, ?_, ?_, ?_, ?_⟩ <;>
    simp [knobMutate, read_knob, hashd_cmd_file_addr_stdev,
      hashd_cmd_anon_addr_stdev, hv, hmin]
  · intro h; rw [h]
  · intro h; rw [h]
  · intro h; rw [h]
  · intro h; rw [h]

/-- Witness for C10 at concrete inputs. -/
theorem c10_stdev_sentinel_witness :
    ¬(2 : ℚ) < 1 ∧
    (((knobMutate testEnv .HashdAFileAddrStdev 2 testCs).hashd0.file_addr_stdev = some 100 ∧
      (knobMutate testEnv .HashdAAnonAddrStdev 2 testCs).hashd0.anon_addr_stdev = some 100 ∧
      (knobMutate testEnv .HashdBFileAddrStdev 2 testCs).hashd1.file_addr_stdev = some 100 ∧
      (knobMutate testEnv .HashdBAnonAddrStdev 2 testCs).hashd1.anon_addr_stdev = some 100) ∧
     (testHashd.file_addr_stdev = some (1/2) →
       hashd_cmd_file_addr_stdev testEnv testHashd = min (1/2) 1) ∧
     (testHashd.anon_addr_stdev = some (1/2) →
       hashd_cmd_anon_addr_stdev testEnv testHashd = min (1/2) 1) ∧
     (read_knob testEnv (knobMutate testEnv .HashdAFileAddrStdev 2 testCs) .HashdAFileAddrStdev = 1 ∧
      read_knob testEnv (knobMutate testEnv .HashdAAnonAddrStdev 2 testCs) .HashdAAnonAddrStdev = 1 ∧
      read_knob testEnv (knobMutate testEnv .HashdBFileAddrStdev 2 testCs) .HashdBFileAddrStdev = 1 ∧
      read_knob testEnv (knobMutate testEnv .HashdBAnonAddrStdev 2 testCs) .HashdBAnonAddrStdev = 1) ∧
     0 ≤ read_knob testEnv (knobMutate testEnv .HashdAFileAddrStdev 2 testCs) .HashdAFileAddrStdev ∧
     read_knob testEnv (knobMutate testEnv .HashdAFileAddrStdev 2 testCs) .HashdAFileAddrStdev ≤ 1 ∧
     (testHashd.file_addr_stdev = none →
       hashd_cmd_file_addr_stdev testEnv testHashd = testEnv.dfl_file_addr_stdev) ∧
     (testHashd.anon_addr_stdev = none →
       hashd_cmd_anon_addr_stdev testEnv testHashd = testEnv.dfl_anon_addr_stdev)) :=
  ⟨by norm_num, c10_stdev_sentinel testEnv testCs 2 testHashd (1/2) (by norm_num)⟩

/-! ### C2 -/

/-- C2: from every starting state, `Reset(AllWithParams)` leaves the
Control State and the (cleared) graph identical to running
`Reset(All)`, then `Reset(HashdParams)` (the workload-parameter reset),
then `Reset(ResCtlParams)` in sequence. -/
theorem c2_allwithparams_seq (env : Env) (st : FullSt) :
    ∃ a b,
      exec_one_cmd env (.Reset .AllWithParams) st = some a ∧
      ((exec_one_cmd env (.Reset .All) st).bind fun s1 =>
        (exec_one_cmd env (.Reset .HashdParams) s1).bind fun s2 =>
          exec_one_cmd env (.Reset .ResCtlParams) s2) = some b ∧
      a.cs = b.cs ∧ a.graph = b.graph := by
  refine ⟨_, _, rfl, rfl, ?_, rfl⟩
  rfl

/-! ### Interpreter-domain lemmas shared by several claims -/

theorem cmdMutate_isSome {env : Env} {cmd : RdCmd} {cs : CmdState}
    {g : Option String} (h : interp_domain cmd = true) :
    ∃ p, cmdMutate env cmd cs g = some p := by
  cases cmd with
  | On sw => exact ⟨_, rfl⟩
  | Off sw => exact ⟨_, rfl⟩
  | Knob k v => exact ⟨_, rfl⟩
  | Graph t => exact ⟨_, rfl⟩
  | Reset r => exact ⟨_, rfl⟩
  | Toggle sw => simp [interp_domain] at h
  | Jump t => simp [interp_domain] at h
  | Group g2 => simp [interp_domain] at h

theorem exec_one_cmd_some_of_domain {env : Env} {cmd : RdCmd} {st : FullSt}
    (h : interp_domain cmd = true) :
    ∃ st', exec_one_cmd env cmd st = some st' := by
  obtain ⟨⟨cs', g'⟩, hm⟩ := @cmdMutate_isSome env cmd st.cs st.graph h
  refine ⟨reconcile env
    { st with
      cs := cs',
      graph := g',
      events := st.events ++
        (if is_on_cmd cmd then [.sync env.sync_ok] else []) ++
        [.mutate, .apply env.apply_ok] }, ?_⟩
  unfold exec_one_cmd
  rw [hm]

theorem exec_group_hits_panic (env : Env) (h g2 : List RdCmd) :
    ∀ g1 : List RdCmd, (∀ x ∈ g1, interp_domain x = true) →
      ∀ st, exec_group env (g1 ++ RdCmd.Group h :: g2) st = none := by
  intro g1
  induction g1 with
  | nil =>
    intro _ st
    simp [exec_group, exec_one_cmd, cmdMutate]
  | cons c rest ih =>
    intro hdom st
    obtain ⟨st', hs⟩ :=
      @exec_one_cmd_some_of_domain env c st (hdom c (List.mem_cons_self _ _))
    rw [List.cons_append, exec_group, hs, Option.bind]
    exact ih (fun x hx => hdom x (List.mem_cons_of_mem _ hx)) st'

/-! ### C9 -/

/-- C9: `exec_cmd` flattens a `Group` exactly one level — a group of
interpreter commands runs each member in order through `exec_one_cmd`,
while a group containing a nested `Group` member reaches the
interpreter's unexpected-command branch and aborts (modelled `none`),
the same branch reached by a `Toggle` or `Jump` handed to the
interpreter directly. -/
theorem c9_group_flattening (env : Env) (st : FullSt) (g1 h g2 : List RdCmd)
    (c : RdCmd) (rest : List RdCmd) (sw : RdSwitch) (t : String)
    (hdom : ∀ x ∈ g1, interp_domain x = true) :
    (∀ cmds, exec_cmd env (.Group cmds) st = exec_group env cmds st) ∧
    exec_group env (c :: rest) st =
      (exec_one_cmd env c st).bind (exec_group env rest) ∧
    (interp_domain c = true → ∃ st', exec_one_cmd env c st = some st') ∧
    exec_cmd env (.Group (g1 ++ RdCmd.Group h :: g2)) st = none ∧
    exec_one_cmd env (.Toggle sw) st = none ∧
    exec_one_cmd env (.Jump t) st = none := by
  refine ⟨fun cmds => rfl, rfl, exec_one_cmd_some_of_domain, ?_, rfl, rfl⟩
  exact exec_group_hits_panic env h g2 g1 hdom st

/-- Witness for C9 at concrete inputs. -/
theorem c9_group_flattening_witness :
    (∀ x ∈ [RdCmd.On RdSwitch.CpuResCtl], interp_domain x = true) ∧
    ((∀ cmds, exec_cmd testEnv (.Group cmds) testSt = exec_group testEnv cmds testSt) ∧
     exec_group testEnv ([RdCmd.Off RdSwitch.Oomd]) testSt =
       (exec_one_cmd testEnv (.Off .Oomd) testSt).bind (exec_group testEnv []) ∧
     (interp_domain (.Off .Oomd) = true →
       ∃ st', exec_one_cmd testEnv (.Off .Oomd) testSt = some st') ∧
     exec_cmd testEnv
       (.Group ([RdCmd.On RdSwitch.CpuResCtl] ++ RdCmd.Group [] :: [])) testSt = none ∧
     exec_one_cmd testEnv (.Toggle .Oomd) testSt = none ∧
     exec_one_cmd testEnv (.Jump "index") testSt = none) := by
  have hdom : ∀ x ∈ [RdCmd.On RdSwitch.CpuResCtl], interp_domain x = true := by
    intro x hx
    rw [List.mem_singleton] at hx
    subst hx
    rfl
  exact ⟨hdom,
    c9_group_flattening testEnv testSt [RdCmd.On RdSwitch.CpuResCtl] [] []
      (.Off .Oomd) [] .Oomd "index" hdom⟩

/-! ### Error-independence lemmas (agent failures never alter state) -/

/-- Equality of everything but the event trace. -/
def EqCtl (a b : FullSt) : Prop :=
  a.cs = b.cs ∧ a.graph = b.graph ∧ a.cur = b.cur ∧ a.hist = b.hist

theorem cmdMutate_ok_irrel (env : Env) (b1 b2 : Bool) (cmd : RdCmd)
    (cs : CmdState) (g : Option String) :
    cmdMutate { env with sync_ok := b1, apply_ok := b2 } cmd cs g =
      cmdMutate env cmd cs g := by
  cases cmd with
  | Knob k v => cases k <;> rfl
  | Reset r => cases r <;> rfl
  | On sw => rfl
  | Off sw => rfl
  | Toggle sw => rfl
  | Graph t => rfl
  | Jump t => rfl
  | Group g2 => rfl

theorem exec_one_cmd_flags_irrel {env : Env} {b1 b2 : Bool} {cmd : RdCmd}
    {sta stb st1 st2 : FullSt} (hp : EqCtl sta stb)
    (h1 : exec_one_cmd env cmd sta = some st1)
    (h2 : exec_one_cmd { env with sync_ok := b1, apply_ok := b2 } cmd stb = some st2) :
    EqCtl st1 st2 := by
  obtain ⟨hcs, hg, hcur, hhist⟩ := hp
  unfold exec_one_cmd at h1 h2
  rw [cmdMutate_ok_irrel, ← hcs, ← hg] at h2
  cases hm : cmdMutate env cmd sta.cs sta.graph with
  | none => rw [hm] at h1; exact Option.noConfusion h1
  | some p =>
    obtain ⟨cs', g'⟩ := p
    rw [hm] at h1 h2
    obtain rfl := (Option.some.inj h1).symm
    obtain rfl := (Option.some.inj h2).symm
    exact ⟨rfl, rfl, hcur, hhist⟩

theorem exec_group_flags_irrel (env : Env) (b1 b2 : Bool) :
    ∀ (g : List RdCmd) (sta stb st1 st2 : FullSt), EqCtl sta stb →
      exec_group env g sta = some st1 →
      exec_group { env with sync_ok := b1, apply_ok := b2 } g stb = some st2 →
      EqCtl st1 st2 := by
  intro g
  induction g with
  | nil =>
    intro sta stb st1 st2 hp h1 h2
    obtain rfl := Option.some.inj h1
    obtain rfl := Option.some.inj h2
    exact hp
  | cons c rest ih =>
    intro sta stb st1 st2 hp h1 h2
    unfold exec_group at h1 h2
    cases hm1 : exec_one_cmd env c sta with
    | none => rw [hm1] at h1; exact Option.noConfusion h1
    | some m1 =>
      cases hm2 : exec_one_cmd { env with sync_ok := b1, apply_ok := b2 } c stb with
      | none => rw [hm2] at h2; exact Option.noConfusion h2
      | some m2 =>
        rw [hm1] at h1
        rw [hm2] at h2
        exact ih m1 m2 st1 st2 (exec_one_cmd_flags_irrel hp hm1 hm2) h1 h2

/-! ### C4 -/

/-- C4: for every command in the interpreter's domain, execution
succeeds with the trace `sync? · mutate · apply · reconcile` — the agent
submission comes after the Control-State mutation and reconciliation
runs unconditionally last; the resulting Control State, graph, document
and history are identical whatever the agent's `sync`/`apply` results
are (errors are logged, never propagated, no rollback); and a `Group`
runs its members in sequence under the same independence. -/
theorem c4_apply_after_mutation (env : Env) (b1 b2 : Bool) (cmd : RdCmd)
    (st : FullSt) (hdom : interp_domain cmd = true) :
    (∃ st', exec_one_cmd env cmd st = some st' ∧
       st'.events = st.events ++
         (if is_on_cmd cmd then [Event.sync env.sync_ok] else []) ++
         [Event.mutate, Event.apply env.apply_ok, Event.reconcile]) ∧
    (∀ st1 st2, exec_one_cmd env cmd st = some st1 →
       exec_one_cmd { env with sync_ok := b1, apply_ok := b2 } cmd st = some st2 →
       EqCtl st1 st2) ∧
    (∀ g, exec_cmd env (.Group g) st = exec_group env g st) ∧
    (∀ g st1 st2, exec_group env g st = some st1 →
       exec_group { env with sync_ok := b1, apply_ok := b2 } g st = some st2 →
       EqCtl st1 st2) := by
  refine ⟨?_, ?_, fun g => rfl, ?_⟩
  · obtain ⟨⟨cs', g'⟩, hm⟩ := @cmdMutate_isSome env cmd st.cs st.graph hdom
    refine ⟨reconcile env
      { st with
        cs := cs',
        graph := g',
        events := st.events ++
          (if is_on_cmd cmd then [.sync env.sync_ok] else []) ++
          [.mutate, .apply env.apply_ok] }, ?_, ?_⟩
    · unfold exec_one_cmd
      rw [hm]
    · simp [reconcile, List.append_assoc]
  · intro st1 st2 h1 h2
    exact exec_one_cmd_flags_irrel ⟨rfl, rfl, rfl, rfl⟩ h1 h2
  · intro g st1 st2 h1 h2
    exact exec_group_flags_irrel env b1 b2 g st st st1 st2 ⟨rfl, rfl, rfl, rfl⟩ h1 h2

/-- Witness for C4 at concrete inputs. -/
theorem c4_apply_after_mutation_witness :
    interp_domain (RdCmd.On RdSwitch.MemResCtl) = true ∧
    ((∃ st', exec_one_cmd testEnv (.On .MemResCtl) testSt = some st' ∧
        st'.events = testSt.events ++
          (if is_on_cmd (.On .MemResCtl) then [Event.sync testEnv.sync_ok] else []) ++
          [Event.mutate, Event.apply testEnv.apply_ok, Event.reconcile]) ∧
     (∀ st1 st2, exec_one_cmd testEnv (.On .MemResCtl) testSt = some st1 →
        exec_one_cmd { testEnv with sync_ok := false, apply_ok := false }
          (.On .MemResCtl) testSt = some st2 →
        EqCtl st1 st2) ∧
     (∀ g, exec_cmd testEnv (.Group g) testSt = exec_group testEnv g testSt) ∧
     (∀ g st1 st2, exec_group testEnv g testSt = some st1 →
        exec_group { testEnv with sync_ok := false, apply_ok := false } g testSt = some st2 →
        EqCtl st1 st2)) :=
  ⟨rfl, c4_apply_after_mutation testEnv false false (.On .MemResCtl) testSt rfl⟩

/-! ### C5 -/

/-- C5: re-enabling a sideload tag overwrites its instance id — after
`On(Sideload(t, id1))` then `On(Sideload(t, id2))` exactly one instance
is active for `t`, mapped to `id2` — and disabling a tag with no active
instance leaves the sideload set unchanged and raises no error; the
same holds for sysload switches. -/
theorem c5_sideload_idempotent (env : Env) (st : FullSt) (t id1 id2 id3 : String)
    (hwf : WFmap st.cs.sideloads) (hwfs : WFmap st.cs.sysloads)
    (habs : mapLookup st.cs.sideloads t = none)
    (habs2 : mapLookup st.cs.sysloads t = none) :
    (∃ a, ((exec_one_cmd env (.On (.Sideload t id1)) st).bind
        (exec_one_cmd env (.On (.Sideload t id2)))) = some a ∧
      countKey a.cs.sideloads t = 1 ∧ mapLookup a.cs.sideloads t = some id2) ∧
    (∃ b, exec_one_cmd env (.Off (.Sideload t id3)) st = some b ∧
      b.cs.sideloads = st.cs.sideloads) ∧
    (∃ c, ((exec_one_cmd env (.On (.Sysload t id1)) st).bind
        (exec_one_cmd env (.On (.Sysload t id2)))) = some c ∧
      countKey c.cs.sysloads t = 1 ∧ mapLookup c.cs.sysloads t = some id2) ∧
    (∃ d, exec_one_cmd env (.Off (.Sysload t id3)) st = some d ∧
      d.cs.sysloads = st.cs.sysloads) := by
  refine ⟨⟨_, rfl, ?_, ?_⟩, ⟨_, rfl, ?_⟩, ⟨_, rfl, ?_, ?_⟩, ⟨_, rfl, ?_⟩⟩
  · exact countKey_mapInsert t id2 _ (mapInsert_wf t id1 _ hwf)
  · exact mapLookup_mapInsert t id2 _
  · exact mapRemove_of_lookup_none _ habs
  · exact countKey_mapInsert t id2 _ (mapInsert_wf t id1 _ hwfs)
  · exact mapLookup_mapInsert t id2 _
  · exact mapRemove_of_lookup_none _ habs2

/-- Witness for C5 at concrete inputs. -/
theorem c5_sideload_idempotent_witness :
    (WFmap testSt.cs.sideloads ∧ WFmap testSt.cs.sysloads ∧
     mapLookup testSt.cs.sideloads "t" = none ∧
     mapLookup testSt.cs.sysloads "t" = none) ∧
    ((∃ a, ((exec_one_cmd testEnv (.On (.Sideload "t" "1")) testSt).bind
        (exec_one_cmd testEnv (.On (.Sideload "t" "2")))) = some a ∧
      countKey a.cs.sideloads "t" = 1 ∧ mapLookup a.cs.sideloads "t" = some "2") ∧
     (∃ b, exec_one_cmd testEnv (.Off (.Sideload "t" "9")) testSt = some b ∧
      b.cs.sideloads = testSt.cs.sideloads) ∧
     (∃ c, ((exec_one_cmd testEnv (.On (.Sysload "t" "1")) testSt).bind
        (exec_one_cmd testEnv (.On (.Sysload "t" "2")))) = some c ∧
      countKey c.cs.sysloads "t" = 1 ∧ mapLookup c.cs.sysloads "t" = some "2") ∧
     (∃ d, exec_one_cmd testEnv (.Off (.Sysload "t" "9")) testSt = some d ∧
      d.cs.sysloads = testSt.cs.sysloads)) :=
  ⟨⟨List.Pairwise.nil, List.Pairwise.nil, rfl, rfl⟩,
    c5_sideload_idempotent testEnv testSt "t" "1" "2" "9"
      List.Pairwise.nil List.Pairwise.nil rfl rfl⟩

/-! ### C1 -/

/-- C1: an `On` command syncs with the agent first — its trace is
`sync · mutate · apply · reconcile`, and a sync failure still proceeds —
while an `Off` command mutates without syncing; consequently, for a
state whose maps are well-formed and whose completion counters agree
with the agent, `On(sw)` then `Off(sw)` leaves the same Control State
as `Off(sw)` alone, and `Off(sw)` then `On(sw)` the same as `On(sw)`
alone: the last command wins. -/
theorem c1_on_syncs_last_wins (env : Env) (sw : RdSwitch) (st : FullSt)
    (hwf : WFmap st.cs.sideloads) (hwfs : WFmap st.cs.sysloads)
    (hrh : st.cs.bench_hashd_cur = env.agent_hashd_cur)
    (hri : st.cs.bench_iocost_cur = env.agent_iocost_cur) :
    (∃ a, exec_one_cmd env (.On sw) st = some a ∧
      a.events = st.events ++
        [Event.sync env.sync_ok, Event.mutate,
         Event.apply env.apply_ok, Event.reconcile]) ∧
    (∃ b, exec_one_cmd env (.Off sw) st = some b ∧
      b.events = st.events ++
        [Event.mutate, Event.apply env.apply_ok, Event.reconcile]) ∧
    ((exec_one_cmd env (.On sw) st).bind
        (exec_one_cmd env (.Off sw))).map FullSt.cs =
      (exec_one_cmd env (.Off sw) st).map FullSt.cs ∧
    ((exec_one_cmd env (.Off sw) st).bind
        (exec_one_cmd env (.On sw))).map FullSt.cs =
      (exec_one_cmd env (.On sw) st).map FullSt.cs := by
  refine ⟨⟨_, rfl, by simp [reconcile, is_on_cmd, List.append_assoc]⟩,
    ⟨_, rfl, by simp [reconcile, is_on_cmd, List.append_assoc]⟩, ?_, ?_⟩
  · cases sw <;>
      simp [exec_one_cmd, cmdMutate, applySwitch, reconcile, cs_refresh,
        Option.bind, Option.map, hrh, hri, mapRemove_mapInsert]
    case BenchNeeded =>
      by_cases hh : env.agent_hashd_cur = 0 <;>
        by_cases hh2 : env.agent_iocost_cur = 0 <;> simp [hh, hh2]
  · cases sw <;>
      simp [exec_one_cmd, cmdMutate, applySwitch, reconcile, cs_refresh,
        Option.bind, Option.map, hrh, hri]
    case BenchNeeded =>
      by_cases hh : env.agent_hashd_cur = 0 <;>
        by_cases hh2 : env.agent_iocost_cur = 0 <;> simp [hh, hh2]
    case Sideload t id => exact mapInsert_mapRemove t id _ hwf
    case Sysload t id => exact mapInsert_mapRemove t id _ hwfs

/-- Witness for C1 at concrete inputs. -/
theorem c1_on_syncs_last_wins_witness :
    (WFmap testSt.cs.sideloads ∧ WFmap testSt.cs.sysloads ∧
     testSt.cs.bench_hashd_cur = testEnv.agent_hashd_cur ∧
     testSt.cs.bench_iocost_cur = testEnv.agent_iocost_cur) ∧
    ((∃ a, exec_one_cmd testEnv (.On .HashdA) testSt = some a ∧
       a.events = testSt.events ++
         [Event.sync testEnv.sync_ok, Event.mutate,
          Event.apply testEnv.apply_ok, Event.reconcile]) ∧
     (∃ b, exec_one_cmd testEnv (.Off .HashdA) testSt = some b ∧
       b.events = testSt.events ++
         [Event.mutate, Event.apply testEnv.apply_ok, Event.reconcile]) ∧
     ((exec_one_cmd testEnv (.On .HashdA) testSt).bind
         (exec_one_cmd testEnv (.Off .HashdA))).map FullSt.cs =
       (exec_one_cmd testEnv (.Off .HashdA) testSt).map FullSt.cs ∧
     ((exec_one_cmd testEnv (.Off .HashdA) testSt).bind
         (exec_one_cmd testEnv (.On .HashdA))).map FullSt.cs =
       (exec_one_cmd testEnv (.On .HashdA) testSt).map FullSt.cs) :=
  ⟨⟨List.Pairwise.nil, List.Pairwise.nil, rfl, rfl⟩,
    c1_on_syncs_last_wins testEnv .HashdA testSt
      List.Pairwise.nil List.Pairwise.nil rfl rfl⟩

/-! ### Pre-command scanning lemmas -/

/-- Is the command a `Jump`? (the retarget test of `show_doc`'s
pre-command loop). -/
def is_jump_cmd : RdCmd → Bool
  | .Jump _ => true
  | _ => false

theorem processPre_cons_not_jump {env : Env} {c : RdCmd}
    (hc : is_jump_cmd c = false) (l : List RdCmd) (st : FullSt) :
    processPre env (c :: l) st = (exec_cmd env c st).bind (processPre env l) := by
  cases c
  case Jump s => simp [is_jump_cmd] at hc
  all_goals rfl

theorem processPre_no_jump (env : Env) :
    ∀ l : List RdCmd, (∀ c ∈ l, is_jump_cmd c = false) →
      ∀ st, processPre env l st = (exec_cmds env l st).map PreOut.done := by
  intro l
  induction l with
  | nil => intro _ st; rfl
  | cons c rest ih =>
    intro hnj st
    rw [processPre_cons_not_jump (hnj c (List.mem_cons_self _ _)),
      exec_cmds]
    cases hx : exec_cmd env c st with
    | none => rfl
    | some s => exact ih (fun x hx2 => hnj x (List.mem_cons_of_mem _ hx2)) s

theorem processPre_append_jump (env : Env) (t : String) (l2 : List RdCmd) :
    ∀ l1 : List RdCmd, (∀ c ∈ l1, is_jump_cmd c = false) →
      ∀ st, processPre env (l1 ++ RdCmd.Jump t :: l2) st =
        (exec_cmds env l1 st).map (PreOut.retarget t) := by
  intro l1
  induction l1 with
  | nil => intro _ st; rfl
  | cons c rest ih =>
    intro hnj st
    rw [List.cons_append,
      processPre_cons_not_jump (hnj c (List.mem_cons_self _ _)),
      exec_cmds]
    cases hx : exec_cmd env c st with
    | none => rfl
    | some s => exact ih (fun x hx2 => hnj x (List.mem_cons_of_mem _ hx2)) s

/-! ### C7 -/

/-- C7: during a jump, the target's pre-commands run in order until the
first `Jump(t)`, which retargets navigation by recursively showing `t`
with `jump := true, back := false`; the pre-commands after the `Jump`
never execute, and the retargeting document never reaches the push step
— the recursive call still sees the original current document and an
unchanged history. -/
theorem c7_pre_cmd_jump_retargets (fuel : Nat) (env : Env) (tgt t : String)
    (doc : RdDoc) (l1 l2 : List RdCmd) (back : Bool) (st : FullSt)
    (hdoc : env.docs tgt = some doc)
    (hpre : doc.pre_cmds = l1 ++ RdCmd.Jump t :: l2)
    (hnj : ∀ c ∈ l1, is_jump_cmd c = false) :
    show_doc (fuel + 1) env tgt true back st =
      ((exec_cmds env st.cur.post_cmds st).bind fun s1 =>
        (exec_cmds env l1 s1).bind fun s2 =>
          show_doc fuel env t true false s2) ∧
    (∀ s1 s2, exec_cmds env st.cur.post_cmds st = some s1 →
       exec_cmds env l1 s1 = some s2 →
       s2.hist = st.hist ∧ s2.cur = st.cur) := by
  constructor
  · rw [show_doc, hdoc]
    simp only [if_pos rfl]
    cases hpc : exec_cmds env st.cur.post_cmds st with
    | none => rfl
    | some s1 =>
      simp only [Option.bind]
      rw [hpre, processPre_append_jump env t l2 l1 hnj s1]
      cases he : exec_cmds env l1 s1 with
      | none => rfl
      | some s2 => rfl
  · intro s1 s2 h1 h2
    obtain ⟨hc1, hh1⟩ := exec_cmds_nav h1
    obtain ⟨hc2, hh2⟩ := exec_cmds_nav h2
    exact ⟨hh2.trans hh1, hc2.trans hc1⟩

/-! ### Navigation lemmas for C3 -/

/-- A jump to a document with no pre-commands, from a current document
with no post-commands: the new state is explicit. -/
theorem show_doc_simple {env : Env} {tgt : String} {doc : RdDoc} {st : FullSt}
    (hdoc : env.docs tgt = some doc) (hpre : doc.pre_cmds = [])
    (hpost : st.cur.post_cmds = []) (back : Bool) :
    show_doc 1 env tgt true back st = some (reconcile env
      { (if back = false ∧ st.cur.id.length > 0
         then { st with hist := st.cur.id :: st.hist } else st) with
        cur := doc }) := by
  rw [show_doc, hdoc]
  simp only [if_pos rfl, hpost, hpre]
  rfl

/-- The history after a non-retargeting `show_doc`: the old current id
is pushed exactly when jumping, not going back, and the id is
non-empty; the target becomes current. -/
theorem show_doc_hist {fuel : Nat} {env : Env} {tgt : String} {doc : RdDoc}
    {jump back : Bool} {st st' : FullSt}
    (hdoc : env.docs tgt = some doc)
    (hnj : ∀ c ∈ doc.pre_cmds, is_jump_cmd c = false)
    (h : show_doc (fuel + 1) env tgt jump back st = some st') :
    st'.hist = (if jump = true ∧ back = false ∧ st.cur.id.length > 0
      then st.cur.id :: st.hist else st.hist) ∧ st'.cur = doc := by
  rw [show_doc, hdoc] at h
  cases jump with
  | false =>
    simp only [Bool.false_eq_true, if_false, false_and] at h ⊢
    obtain rfl := (Option.some.inj h).symm
    exact ⟨rfl, rfl⟩
  | true =>
    simp only [if_pos rfl] at h
    simp only [true_and]
    cases hpc : exec_cmds env st.cur.post_cmds st with
    | none => rw [hpc] at h; exact Option.noConfusion h
    | some s1 =>
      rw [hpc] at h
      simp only [] at h
      rw [processPre_no_jump env doc.pre_cmds hnj s1] at h
      cases he : exec_cmds env doc.pre_cmds s1 with
      | none => rw [he] at h; exact Option.noConfusion h
      | some s2 =>
        rw [he] at h
        simp only [Option.map] at h
        obtain ⟨hc1, hh1⟩ := exec_cmds_nav hpc
        obtain ⟨hc2, hh2⟩ := exec_cmds_nav he
        by_cases hcond : back = false ∧ st.cur.id.length > 0
        · rw [if_pos hcond] at h
          obtain rfl := (Option.some.inj h).symm
          rw [if_pos hcond]
          exact ⟨by simp [reconcile, hh2, hh1], rfl⟩
        · rw [if_neg hcond] at h
          obtain rfl := (Option.some.inj h).symm
          rw [if_neg hcond]
          exact ⟨by simp [reconcile, hh2, hh1], rfl⟩

/-! ### C3 -/

/-- C3: from an empty current document with empty history, jumping
A → B → C and then going Back twice returns the current document to A
with an empty history; the current id is pushed exactly when a show is
a jump, is not a back, and the current id is non-empty; and Back pops
the top of the history and re-runs `show_doc` with
`jump := true, back := true` (so exit/entry commands still run and the
popped id is not re-pushed). -/
theorem c3_back_navigation (env : Env) (dA dB dC : RdDoc)
    (hA : env.docs "A" = some dA) (hAid : dA.id = "A")
    (hApre : dA.pre_cmds = []) (hApost : dA.post_cmds = [])
    (hB : env.docs "B" = some dB) (hBid : dB.id = "B")
    (hBpre : dB.pre_cmds = []) (hBpost : dB.post_cmds = [])
    (hC : env.docs "C" = some dC) (hCid : dC.id = "C")
    (hCpre : dC.pre_cmds = []) (hCpost : dC.post_cmds = []) :
    (∀ st : FullSt, st.cur = emptyDoc → st.hist = [] →
      ∃ s1 s2 s3 s4 s5,
        show_doc 1 env "A" true false st = some s1 ∧
        show_doc 1 env "B" true false s1 = some s2 ∧
        show_doc 1 env "C" true false s2 = some s3 ∧
        do_back 1 env s3 = some s4 ∧
        do_back 1 env s4 = some s5 ∧
        s1.cur = dA ∧ s1.hist = [] ∧
        s2.cur = dB ∧ s2.hist = ["A"] ∧
        s3.cur = dC ∧ s3.hist = ["B", "A"] ∧
        s4.cur = dB ∧ s4.hist = ["A"] ∧
        s5.cur = dA ∧ s5.hist = []) ∧
    (∀ (fuel : Nat) (tgt : String) (doc : RdDoc) (jump back : Bool)
        (st st' : FullSt), env.docs tgt = some doc →
      (∀ c ∈ doc.pre_cmds, is_jump_cmd c = false) →
      show_doc (fuel + 1) env tgt jump back st = some st' →
      st'.hist = (if jump = true ∧ back = false ∧ st.cur.id.length > 0
        then st.cur.id :: st.hist else st.hist) ∧ st'.cur = doc) ∧
    (∀ (fuel : Nat) (st : FullSt) (h : String) (rest : List String),
      st.hist = h :: rest →
      do_back fuel env st = show_doc fuel env h true true { st with hist := rest }) := by
  refine ⟨?_, ?_, ?_⟩
  · intro st hcur hhist
    obtain ⟨cs, g, cur, hist, ev⟩ := st
    simp only [] at hcur hhist
    subst hcur
    subst hhist
    have h1 : show_doc 1 env "A" true false ⟨cs, g, emptyDoc, [], ev⟩ =
        some ⟨cs_refresh env cs, g, dA, [], ev ++ [Event.reconcile]⟩ := by
      have h := @show_doc_simple env "A" dA ⟨cs, g, emptyDoc, [], ev⟩ hA hApre rfl false
      rw [if_neg (by simp [emptyDoc])] at h
      exact h
    have h2 : show_doc 1 env "B" true false
        ⟨cs_refresh env cs, g, dA, [], ev ++ [Event.reconcile]⟩ =
        some ⟨cs_refresh env cs, g, dB, [dA.id],
          ev ++ [Event.reconcile] ++ [Event.reconcile]⟩ := by
      have h := @show_doc_simple env "B" dB
        ⟨cs_refresh env cs, g, dA, [], ev ++ [Event.reconcile]⟩ hB hBpre
        (by rw [show (⟨cs_refresh env cs, g, dA, [], ev ++ [Event.reconcile]⟩ :
          FullSt).cur.post_cmds = dA.post_cmds from rfl, hApost]) false
      rw [if_pos ⟨rfl, by
        show dA.id.length > 0
        rw [hAid]
        decide⟩] at h
      exact h
    have h3 : show_doc 1 env "C" true false
        ⟨cs_refresh env cs, g, dB, [dA.id],
          ev ++ [Event.reconcile] ++ [Event.reconcile]⟩ =
        some ⟨cs_refresh env cs, g, dC, [dB.id, dA.id],
          ev ++ [Event.reconcile] ++ [Event.reconcile] ++ [Event.reconcile]⟩ := by
      have h := @show_doc_simple env "C" dC
        ⟨cs_refresh env cs, g, dB, [dA.id],
          ev ++ [Event.reconcile] ++ [Event.reconcile]⟩ hC hCpre
        (by rw [show (⟨cs_refresh env cs, g, dB, [dA.id],
          ev ++ [Event.reconcile] ++ [Event.reconcile]⟩ :
          FullSt).cur.post_cmds = dB.post_cmds from rfl, hBpost]) false
      rw [if_pos ⟨rfl, by
        show dB.id.length > 0
        rw [hBid]
        decide⟩] at h
      exact h
    have h4 : show_doc 1 env dB.id true true
        ⟨cs_refresh env cs, g, dC, [dA.id],
          ev ++ [Event.reconcile] ++ [Event.reconcile] ++ [Event.reconcile]⟩ =
        some ⟨cs_refresh env cs, g, dB, [dA.id],
          ev ++ [Event.reconcile] ++ [Event.reconcile] ++ [Event.reconcile] ++
            [Event.reconcile]⟩ := by
      have h := @show_doc_simple env dB.id dB
        ⟨cs_refresh env cs, g, dC, [dA.id],
          ev ++ [Event.reconcile] ++ [Event.reconcile] ++ [Event.reconcile]⟩
        (by rw [hBid]; exact hB) hBpre
        (by rw [show (⟨cs_refresh env cs, g, dC, [dA.id],
          ev ++ [Event.reconcile] ++ [Event.reconcile] ++ [Event.reconcile]⟩ :
          FullSt).cur.post_cmds = dC.post_cmds from rfl, hCpost]) true
      rw [if_neg (by simp)] at h
      exact h
    have h5 : show_doc 1 env dA.id true true
        ⟨cs_refresh env cs, g, dB, [],
          ev ++ [Event.reconcile] ++ [Event.reconcile] ++ [Event.reconcile] ++
            [Event.reconcile]⟩ =
        some ⟨cs_refresh env cs, g, dA, [],
          ev ++ [Event.reconcile] ++ [Event.reconcile] ++ [Event.reconcile] ++
            [Event.reconcile] ++ [Event.reconcile]⟩ := by
      have h := @show_doc_simple env dA.id dA
        ⟨cs_refresh env cs, g, dB, [],
          ev ++ [Event.reconcile] ++ [Event.reconcile] ++ [Event.reconcile] ++
            [Event.reconcile]⟩
        (by rw [hAid]; exact hA) hApre
        (by rw [show (⟨cs_refresh env cs, g, dB, [],
          ev ++ [Event.reconcile] ++ [Event.reconcile] ++ [Event.reconcile] ++
            [Event.reconcile]⟩ :
          FullSt).cur.post_cmds = dB.post_cmds from rfl, hBpost]) true
      rw [if_neg (by simp)] at h
      exact h
    exact ⟨_, _, _, _, _, h1, h2, h3, h4, h5, rfl, rfl, rfl,
      by rw [hAid], rfl, by rw [hBid, hAid], rfl, by rw [hAid], rfl, rfl⟩
  · intro fuel tgt doc jump back st st' hdoc hnj h
    exact show_doc_hist hdoc hnj h
  · intro fuel st h rest hh
    unfold do_back
    rw [hh]

/-! ### Concrete documents for the navigation witnesses -/

/-- A concrete document with no commands. -/
def docA : RdDoc :=
  { id := "A", desc := "", pre_cmds := [], post_cmds := [],
    toggles := [], knobs := [] }

/-- A concrete document with no commands. -/
def docB : RdDoc :=
  { id := "B", desc := "", pre_cmds := [], post_cmds := [],
    toggles := [], knobs := [] }

/-- A concrete document with no commands. -/
def docC : RdDoc :=
  { id := "C", desc := "", pre_cmds := [], post_cmds := [],
    toggles := [], knobs := [] }

/-- A concrete document whose pre-commands contain a retargeting jump. -/
def docJ : RdDoc :=
  { id := "J", desc := "",
    pre_cmds := [RdCmd.Reset .Graph, RdCmd.Jump "A", RdCmd.Reset .All],
    post_cmds := [], toggles := [], knobs := [] }

/-- A concrete document registry. -/
def navDocs : String → Option RdDoc := fun s =>
  if s = "A" then some docA
  else if s = "B" then some docB
  else if s = "C" then some docC
  else if s = "J" then some docJ
  else none

/-- The concrete environment with the navigation registry installed. -/
def navEnv : Env := { testEnv with docs := navDocs }

/-- Witness for C3 at concrete inputs. -/
theorem c3_back_navigation_witness :
    (navEnv.docs "A" = some docA ∧ docA.id = "A" ∧
     docA.pre_cmds = [] ∧ docA.post_cmds = [] ∧
     navEnv.docs "B" = some docB ∧ docB.id = "B" ∧
     docB.pre_cmds = [] ∧ docB.post_cmds = [] ∧
     navEnv.docs "C" = some docC ∧ docC.id = "C" ∧
     docC.pre_cmds = [] ∧ docC.post_cmds = []) ∧
    ((∀ st : FullSt, st.cur = emptyDoc → st.hist = [] →
      ∃ s1 s2 s3 s4 s5,
        show_doc 1 navEnv "A" true false st = some s1 ∧
        show_doc 1 navEnv "B" true false s1 = some s2 ∧
        show_doc 1 navEnv "C" true false s2 = some s3 ∧
        do_back 1 navEnv s3 = some s4 ∧
        do_back 1 navEnv s4 = some s5 ∧
        s1.cur = docA ∧ s1.hist = [] ∧
        s2.cur = docB ∧ s2.hist = ["A"] ∧
        s3.cur = docC ∧ s3.hist = ["B", "A"] ∧
        s4.cur = docB ∧ s4.hist = ["A"] ∧
        s5.cur = docA ∧ s5.hist = []) ∧
     (∀ (fuel : Nat) (tgt : String) (doc : RdDoc) (jump back : Bool)
         (st st' : FullSt), navEnv.docs tgt = some doc →
       (∀ c ∈ doc.pre_cmds, is_jump_cmd c = false) →
       show_doc (fuel + 1) navEnv tgt jump back st = some st' →
       st'.hist = (if jump = true ∧ back = false ∧ st.cur.id.length > 0
         then st.cur.id :: st.hist else st.hist) ∧ st'.cur = doc) ∧
     (∀ (fuel : Nat) (st : FullSt) (h : String) (rest : List String),
       st.hist = h :: rest →
       do_back fuel navEnv st =
         show_doc fuel navEnv h true true { st with hist := rest })) :=
  ⟨⟨rfl, rfl, rfl, rfl, rfl, rfl, rfl, rfl, rfl, rfl, rfl, rfl⟩,
    c3_back_navigation navEnv docA docB docC
      rfl rfl rfl rfl rfl rfl rfl rfl rfl rfl rfl rfl⟩

/-- Witness for C7 at concrete inputs. -/
theorem c7_pre_cmd_jump_retargets_witness :
    (navEnv.docs "J" = some docJ ∧
     docJ.pre_cmds = [RdCmd.Reset .Graph] ++ RdCmd.Jump "A" :: [RdCmd.Reset .All] ∧
     (∀ c ∈ [RdCmd.Reset RdReset.Graph], is_jump_cmd c = false)) ∧
    (show_doc 2 navEnv "J" true false testSt =
      ((exec_cmds navEnv testSt.cur.post_cmds testSt).bind fun s1 =>
        (exec_cmds navEnv [RdCmd.Reset .Graph] s1).bind fun s2 =>
          show_doc 1 navEnv "A" true false s2) ∧
     (∀ s1 s2, exec_cmds navEnv testSt.cur.post_cmds testSt = some s1 →
        exec_cmds navEnv [RdCmd.Reset .Graph] s1 = some s2 →
        s2.hist = testSt.hist ∧ s2.cur = testSt.cur)) := by
  have hnj : ∀ c ∈ [RdCmd.Reset RdReset.Graph], is_jump_cmd c = false := by
    intro c hc
    rw [List.mem_singleton] at hc
    subst hc
    rfl
  exact ⟨⟨rfl, rfl, hnj⟩,
    c7_pre_cmd_jump_retargets 1 navEnv "J" "A" docJ
      [RdCmd.Reset .Graph] [RdCmd.Reset .All] false testSt rfl rfl hnj⟩

/-! ### Rounding lemmas for C8 -/

theorem rustRound_natCast (n : Nat) : rustRound ((n : ℚ)) = (n : ℤ) := by
  unfold rustRound
  rw [if_pos (by positivity), Int.floor_eq_iff]
  constructor
  · push_cast
    linarith
  · push_cast
    linarith

theorem rustRound_mono {a b : ℚ} (h0 : 0 ≤ a) (hab : a ≤ b) :
    rustRound a ≤ rustRound b := by
  unfold rustRound
  rw [if_pos h0, if_pos (le_trans h0 hab)]
  exact Int.floor_mono (by linarith)

/-! ### C8 -/

/-- The per-knob denormalization `f(r)` named by the spec: the rendered
readout for ratio `r` — for the log-bandwidth knobs the formatted value
of `r` times the measured write bandwidth as stored, i.e. of
`round(wbps * r)`; for every other knob `format_knob_val` itself. -/
def knob_denorm (env : Env) (knob : RdKnob) (r : ℚ) : String :=
  match knob with
  | .HashdALogBps | .HashdBLogBps =>
    pad5 (env.fmt_size ((u64cast (rustRound ((env.wbps : ℚ) * r)) : ℚ)))
  | _ => format_knob_val env knob r

/-- C8: executing `Knob(knob, r)` for `r ∈ {0, 1/4, 1/2, 3/4, 1}` and
reading the rendered value at the next reconciliation yields exactly
the per-knob denormalization `f(r)` — in particular for the
log-bandwidth knobs the value stored is `round(wbps * r)` and the
rendered readout is its formatted value. -/
theorem c8_knob_round_trip (env : Env) (knob : RdKnob) (r : ℚ) (cs : CmdState)
    (range : Nat) (hw : 0 < env.wbps)
    (hr : r = 0 ∨ r = 1/4 ∨ r = 1/2 ∨ r = 3/4 ∨ r = 1) :
    (refresh_one_knob env knob
      (read_knob env (cs_refresh env (knobMutate env knob r cs)) knob)
      range).digit = knob_denorm env knob r := by
  have h0 : 0 ≤ r := by rcases hr with rfl | rfl | rfl | rfl | rfl <;> norm_num
  have h1 : r ≤ 1 := by rcases hr with rfl | rfl | rfl | rfl | rfl <;> norm_num
  have hwq : (0 : ℚ) < (env.wbps : ℚ) := by exact_mod_cast hw
  have hstdev : min (if r < 1 then r else 100) (1 : ℚ) = r := by
    by_cases hlt : r < 1
    · rw [if_pos hlt]
      exact min_eq_left h1
    · rw [if_neg hlt, le_antisymm h1 (not_lt.mp hlt)]
      norm_num
  have hlog : ((u64cast (rustRound ((env.wbps : ℚ) * r)) : Nat) : ℚ) ≤
      (env.wbps : ℚ) := by
    have hle : rustRound ((env.wbps : ℚ) * r) ≤ (env.wbps : ℤ) := by
      have hcast : (0 : ℚ) ≤ (env.wbps : ℚ) := Nat.cast_nonneg env.wbps
      have := rustRound_mono (mul_nonneg hcast h0)
        (mul_le_of_le_one_right hcast h1)
      rwa [rustRound_natCast] at this
    have : u64cast (rustRound ((env.wbps : ℚ) * r)) ≤ env.wbps := by
      unfold u64cast
      refine le_trans (min_le_left _ _) ?_
      have := Int.toNat_le_toNat hle
      rwa [Int.toNat_natCast] at this
    exact_mod_cast this
  have hlogmem0 : (0 : ℚ) ≤
      ((u64cast (rustRound ((env.wbps : ℚ) * r)) : Nat) : ℚ) / (env.wbps : ℚ) :=
    div_nonneg (Nat.cast_nonneg _) (le_of_lt hwq)
  have hlogmem1 :
      ((u64cast (rustRound ((env.wbps : ℚ) * r)) : Nat) : ℚ) / (env.wbps : ℚ) ≤ 1 :=
    (div_le_one hwq).mpr hlog
  cases knob
  all_goals
    simp only [refresh_one_knob, read_knob, knob_denorm, knobMutate, cs_refresh,
      hmem_ratio, hashd_cmd_file_addr_stdev, hashd_cmd_anon_addr_stdev]
  case HashdAFileAddrStdev => rw [hstdev, clamp01_of_mem r h0 h1]
  case HashdAAnonAddrStdev => rw [hstdev, clamp01_of_mem r h0 h1]
  case HashdBFileAddrStdev => rw [hstdev, clamp01_of_mem r h0 h1]
  case HashdBAnonAddrStdev => rw [hstdev, clamp01_of_mem r h0 h1]
  case HashdALogBps =>
    rw [clamp01_of_mem _ hlogmem0 hlogmem1]
    simp only [format_knob_val]
    rw [div_mul_cancel₀ _ (ne_of_gt hwq)]
  case HashdBLogBps =>
    rw [clamp01_of_mem _ hlogmem0 hlogmem1]
    simp only [format_knob_val]
    rw [div_mul_cancel₀ _ (ne_of_gt hwq)]
  all_goals rw [clamp01_of_mem r h0 h1]

/-- Witness for C8 at concrete inputs. -/
theorem c8_knob_round_trip_witness :
    (0 < testEnv.wbps ∧
     ((1 : ℚ)/2 = 0 ∨ (1 : ℚ)/2 = 1/4 ∨ (1 : ℚ)/2 = 1/2 ∨
      (1 : ℚ)/2 = 3/4 ∨ (1 : ℚ)/2 = 1)) ∧
    (refresh_one_knob testEnv .HashdALogBps
      (read_knob testEnv
        (cs_refresh testEnv (knobMutate testEnv .HashdALogBps (1/2) testCs))
        .HashdALogBps) 5).digit = knob_denorm testEnv .HashdALogBps (1/2) :=
  ⟨⟨by decide, by norm_num⟩,
    c8_knob_round_trip testEnv .HashdALogBps (1/2) testCs 5 (by decide)
      (by norm_num)⟩

end RdDemo
